import Mathlib

/-!
Shallow embedding of `src/api-extractor/src/DocItemLoader.ts`.

The loader resolves cross-package API documentation references.  We model:
  * the reference shape (`ApiDefinitionReference`), with absent optional
    string fields represented by the empty string (JavaScript falsiness of
    strings is emptiness, which is exactly what the guards
    `if (apiDefinitionRef.scopeName)` / `if (!apiDefinitionRef.packageName)` /
    `if (apiDefinitionRef.memberName)` test);
  * documentation items and packages as association lists (JavaScript
    objects with unique keys);
  * the filesystem as a read-only association list from path to file
    content;
  * the mutable cache (`Map<string, IDocPackage>`) as an association list
    threaded through the operations;
  * thrown JavaScript errors with `Except String`, the error-report
    callback as an accumulated list of messages, and filesystem accesses as
    an accumulated list of the paths touched.
-/

namespace DocItemLoaderModel

/-- Association-list lookup, mirroring `map.get(key)` / `key in obj` /
`obj[key]` on JavaScript maps and objects (keys are unique). -/
def lookupAssoc {α : Type} : List (String × α) → String → Option α
  | [], _ => none
  | (k, v) :: rest, key => if k = key then some v else lookupAssoc rest key

/-- `Map.set(key, value)`: replace the binding if the key is present,
otherwise append it. -/
def mapSet {α : Type} (key : String) (value : α) : List (String × α) → List (String × α)
  | [] => [(key, value)]
  | (k, v) :: rest =>
      if k = key then (key, value) :: rest else (k, v) :: mapSet key value rest

/-- Node's `path.join`: the non-empty segments joined with `/`.  (Node also
normalizes `.` and `..` segments; the paths this component joins contain
none, so filtering empty segments and interleaving `/` is exact.  In
particular `path.join(p)` of a single already-normalized path is `p`.) -/
def pathJoin (parts : List String) : String :=
  String.intercalate "/" (parts.filter (fun s => s ≠ ""))

/-- Splitting a character list on a separator character, mirroring
JavaScript `String.prototype.split` with a single-character separator:
the empty input yields `[[]]` (JS: `"".split('.')` is `[""]`), and a
leading separator yields a leading empty component. -/
def splitOnChar (c : Char) : List Char → List (List Char)
  | [] => [[]]
  | x :: xs =>
      if x = c then [] :: splitOnChar c xs
      else
        match splitOnChar c xs with
        | [] => [[x]]
        | r :: rs => (x :: r) :: rs

/-- Node's `path.basename`: the substring after the last `/`. -/
def pathBasename (p : String) : String :=
  String.mk ((splitOnChar '/' p.data).getLastD [])

/-- `s.split('.').shift()`: the first component of splitting on `.`. -/
def basenameFirstDotComponent (s : String) : String :=
  String.mk ((splitOnChar '.' s.data).headD [])

/-- `os.EOL` on the (POSIX) platform the tool runs on. -/
def osEOL : String := "\n"

/-- `IApiDefinitionReference` (its declaration file is not under `src/`;
shape taken from the spec: `{ scopeName?: string, packageName: string,
exportName: string, memberName?: string }`, optional strings absent as
`""`). -/
structure ApiDefinitionReference where
  scopeName : String
  packageName : String
  exportName : String
  memberName : String

/-- `IDocItem` — Modelled from the spec: the declaration file
`IDocItem.ts` is not under `src/`; per the spec only the Class-like
variant carries a `members` mapping from member name to item, and every
other variant has no `members` property (so reading `.members` on it
yields JavaScript `undefined`). -/
inductive DocItem where
  | classLike (members : List (String × DocItem)) : DocItem
  | plain : DocItem

/-- The `members` property access `(docItem as IDocClass).members`:
`undefined` (`none`) on a non-Class-like item. -/
def DocItem.membersOf : DocItem → Option (List (String × DocItem))
  | .classLike ms => some ms
  | .plain => none

/-- `IDocPackage`: a validated manifest, a mapping from export name to
item (the only field this core reads is `exports`). -/
structure DocPackage where
  exports : List (String × DocItem)

/-- The cache `Map<string, IDocPackage>`. -/
def Cache : Type := List (String × DocPackage)

/-- A manifest document as stored on disk, once JSON-parsed.  Modelled
from the spec: `JsonFile.validateSchema` (not under `src/`) checks the
document against the bundled `api-json-schema.json` and invokes the error
callback exactly when the document violates it; `schemaValid` is that
verdict and `errorDetail` the violation detail it passes.  `package` is
the structural content the loader uses after validation. -/
structure ManifestDoc where
  schemaValid : Bool
  errorDetail : String
  package : DocPackage

/-- Content of a file: either text that fails JSON parsing (so
`JsonFile.loadJsonFile` throws), or a parsed manifest document. -/
inductive FileContent where
  | invalidJson : FileContent
  | doc (d : ManifestDoc) : FileContent

/-- The filesystem, read-only during a call. -/
def FS : Type := List (String × FileContent)

/-- `fsx.existsSync`. -/
def existsSync (fs : FS) (p : String) : Bool :=
  (lookupAssoc fs p).isSome

/-- `JsonFile.loadJsonFile` — Modelled from the spec: `JsonFile.ts` is not
under `src/`; it reads and JSON-parses the file, and a parse failure (or a
missing file) propagates as a thrown error. -/
def loadJsonFile (fs : FS) (p : String) : Except String ManifestDoc :=
  match lookupAssoc fs p with
  | some (.doc d) => .ok d
  | some .invalidJson => .error ("Unexpected token in JSON: " ++ p)
  | none => .error ("ENOENT: no such file " ++ p)

/-- The path `path.join(__dirname, './schemas/api-json-schema.json')` of
the fixed, bundled schema document (always present alongside the code). -/
def apiJsonSchemaPath : String := "__dirname/schemas/api-json-schema.json"

/-- The message of the error thrown by the `validateSchema` callback in
`loadPackageIntoCache`. -/
def validationErrorMessage (errorDetail : String) : String :=
  "ApiJsonGenerator validation error - output does not conform to api-json-schema.json:"
    ++ osEOL ++ errorDetail

/-- The message reported when the manifest is not found in node modules. -/
def notFoundMessage (packageName : String) : String :=
  "@inheritdoc referenced package (\"" ++ packageName ++ "\") not found in node modules."

/-- The message of the TypeError JavaScript raises for
`key in undefined`, as happens at
`apiDefinitionRef.memberName in (docItem as IDocClass).members` when the
resolved export carries no `members` mapping. -/
def inOperatorTypeError (key : String) : String :=
  "TypeError: Cannot use 'in' operator to search for '" ++ key ++ "' in undefined"

/-- Outcome of a loader operation: the returned value or thrown error,
the cache afterwards, the messages passed to the `reportError` callback,
and the filesystem paths accessed, each in order. -/
structure Outcome (α : Type) where
  result : Except String α
  cache : Cache
  reported : List String
  fsReads : List String

/-- The `cachePackageName` computed at the top of `getPackage`:
`scopeName/packageName` when `scopeName` is truthy, else `packageName`. -/
def cacheKey (ref : ApiDefinitionReference) : String :=
  if ref.scopeName ≠ "" then ref.scopeName ++ "/" ++ ref.packageName
  else ref.packageName

/-- The `packageJsonFilePath` computed by `getPackage`:
`path.join(projectFolder, 'node_modules', scopeName, packageName,
`dist/<packageName>.api.json`)`. -/
def manifestPath (projectFolder : String) (ref : ApiDefinitionReference) : String :=
  pathJoin [projectFolder, "node_modules", ref.scopeName, ref.packageName,
    "dist/" ++ ref.packageName ++ ".api.json"]

/-- The key `loadPackageIntoCache` stores under:
`path.basename(packageJsonFilePath).split('.').shift()`. -/
def storeKey (packageJsonFilePath : String) : String :=
  basenameFirstDotComponent (pathBasename packageJsonFilePath)

/-- `DocItemLoader.loadPackageIntoCache(packageJsonFilePath)`: JSON-load
the manifest (parse failure throws), load the bundled schema, validate
(on violation the callback composes the diagnostic and throws), then
store the package in the cache under the basename-derived key and return
it.  It never invokes `reportError` (its `console.log` writes to the
console, not the callback). -/
def loadPackageIntoCache (fs : FS) (cache : Cache) (packageJsonFilePath : String) :
    Outcome DocPackage :=
  match loadJsonFile fs packageJsonFilePath with
  | .error e => ⟨.error e, cache, [], [packageJsonFilePath]⟩
  | .ok d =>
      if d.schemaValid then
        ⟨.ok d.package,
          mapSet (storeKey packageJsonFilePath) d.package cache,
          [], [packageJsonFilePath, apiJsonSchemaPath]⟩
      else
        ⟨.error (validationErrorMessage d.errorDetail), cache,
          [], [packageJsonFilePath, apiJsonSchemaPath]⟩

/-- `DocItemLoader.getPackage(apiDefinitionRef, reportError)`: compute the
cache key; on a cache hit return the cached package; if `packageName` is
falsy return `undefined`; otherwise compute the manifest path, check its
existence (reporting and returning `undefined` when absent), and delegate
to `loadPackageIntoCache`. -/
def getPackage (fs : FS) (cache : Cache) (projectFolder : String)
    (ref : ApiDefinitionReference) : Outcome (Option DocPackage) :=
  match lookupAssoc cache (cacheKey ref) with
  | some pkg => ⟨.ok (some pkg), cache, [], []⟩
  | none =>
      if ref.packageName = "" then ⟨.ok none, cache, [], []⟩
      else
        let packageJsonFilePath := manifestPath projectFolder ref
        if existsSync fs packageJsonFilePath then
          let out := loadPackageIntoCache fs cache packageJsonFilePath
          ⟨out.result.map some, out.cache, out.reported,
            packageJsonFilePath :: out.fsReads⟩
        else
          ⟨.ok none, cache, [notFoundMessage ref.packageName],
            [packageJsonFilePath]⟩

/-- `DocItemLoader.getItem(apiDefinitionRef, reportError)`: report and
return `undefined` on a missing reference; load the package; look up the
export; when a `memberName` is given, evaluate
`memberName in (docItem as IDocClass).members`, which throws a TypeError
when the item carries no `members` mapping, and otherwise selects the
member or returns `undefined`. -/
def getItem (fs : FS) (cache : Cache) (projectFolder : String)
    (ref? : Option ApiDefinitionReference) : Outcome (Option DocItem) :=
  match ref? with
  | none => ⟨.ok none, cache, ["Expected reference within \x7b@inheritdoc\x7d tag"], []⟩
  | some ref =>
      let out := getPackage fs cache projectFolder ref
      match out.result with
      | .error e => ⟨.error e, out.cache, out.reported, out.fsReads⟩
      | .ok none => ⟨.ok none, out.cache, out.reported, out.fsReads⟩
      | .ok (some docPackage) =>
          match lookupAssoc docPackage.exports ref.exportName with
          | none => ⟨.ok none, out.cache, out.reported, out.fsReads⟩
          | some docItem =>
              if ref.memberName ≠ "" then
                match docItem.membersOf with
                | none =>
                    ⟨.error (inOperatorTypeError ref.memberName),
                      out.cache, out.reported, out.fsReads⟩
                | some members =>
                    match lookupAssoc members ref.memberName with
                    | some m => ⟨.ok (some m), out.cache, out.reported, out.fsReads⟩
                    | none => ⟨.ok none, out.cache, out.reported, out.fsReads⟩
              else ⟨.ok (some docItem), out.cache, out.reported, out.fsReads⟩


/-! ## Concrete fixtures used by witnesses and counterexamples -/

/-- A member item, distinguishable from the export that contains it. -/
def renderItem : DocItem := .plain

/-- A Class-like export carrying a `members` mapping with `render`. -/
def widgetItem : DocItem := .classLike [("render", renderItem)]

/-- A loaded package: `exports.Widget` is Class-like with member
`render`; `exports.funcItem` is a non-Class-like export. -/
def fooPackage : DocPackage := ⟨[("Widget", widgetItem), ("funcItem", .plain)]⟩

/-- Like `fooPackage` but `exports.Widget.members` lacks `render`. -/
def fooPackageNoRender : DocPackage := ⟨[("Widget", .classLike [])]⟩

/-- A filesystem holding a valid manifest for the unscoped package `foo`. -/
def plainFS : FS := [("root/node_modules/foo/dist/foo.api.json", .doc ⟨true, "", fooPackage⟩)]

/-- An unscoped reference to package `foo`. -/
def fooRef : ApiDefinitionReference := ⟨"", "foo", "Widget", ""⟩

/-- The outcome of the first `getPackage` call for `fooRef`. -/
def fooOut : Outcome (Option DocPackage) := getPackage plainFS [] "root" fooRef

/-- A filesystem holding a valid manifest for the scoped package `s/p`. -/
def scopedFS : FS := [("root/node_modules/s/p/dist/p.api.json", .doc ⟨true, "", fooPackage⟩)]

/-- A scoped reference to package `p` in scope `s`. -/
def scopedRef : ApiDefinitionReference := ⟨"s", "p", "Widget", ""⟩

/-- A filesystem holding a valid manifest for a package whose name starts
with a dot (nothing in the loader rejects such a name). -/
def evilFS : FS := [("root/node_modules/.evil/dist/.evil.api.json", .doc ⟨true, "", fooPackage⟩)]

/-- A reference to the dot-named package. -/
def evilRef : ApiDefinitionReference := ⟨"", ".evil", "x", ""⟩

/-- A reference with an empty `packageName` (the local-package case). -/
def emptyNameRef : ApiDefinitionReference := ⟨"", "", "x", ""⟩

/-- A manifest document violating the schema. -/
def invalidDoc : ManifestDoc := ⟨false, "Missing required property: exports", fooPackage⟩

/-- A filesystem holding the schema-invalid manifest. -/
def invalidFS : FS := [("root/node_modules/bad/dist/bad.api.json", .doc invalidDoc)]

/-! ## Helper lemmas -/

theorem lookupAssoc_mapSet_self {α : Type} (key : String) (v : α) (m : List (String × α)) :
    lookupAssoc (mapSet key v m) key = some v := by
  induction m with
  | nil => simp [mapSet, lookupAssoc]
  | cons kv rest ih =>
      obtain ⟨k, w⟩ := kv
      by_cases h : k = key
      · simp [mapSet, h, lookupAssoc]
      · simp [mapSet, h, lookupAssoc, ih]

/-- Branch analysis of a successful `getPackage` call: it reports no
error, and either it was a cache hit (cache unchanged) or it loaded the
manifest and stored the package under the basename-derived key. -/
theorem getPackage_ok_some_cases (fs : FS) (cache : Cache) (root : String)
    (ref : ApiDefinitionReference) (out : Outcome (Option DocPackage)) (pkg : DocPackage)
    (hout : getPackage fs cache root ref = out) (hres : out.result = .ok (some pkg)) :
    out.reported = [] ∧
      ((out.cache = cache ∧ lookupAssoc cache (cacheKey ref) = some pkg) ∨
        out.cache = mapSet (storeKey (manifestPath root ref)) pkg cache) := by
  cases hc : lookupAssoc cache (cacheKey ref) with
  | some p =>
      simp only [getPackage, hc] at hout
      subst hout
      obtain rfl : p = pkg := by simpa using hres
      exact ⟨rfl, Or.inl ⟨rfl, rfl⟩⟩
  | none =>
      simp only [getPackage, hc] at hout
      by_cases hp : ref.packageName = ""
      · rw [if_pos hp] at hout
        subst hout
        simp at hres
      · rw [if_neg hp] at hout
        by_cases he : existsSync fs (manifestPath root ref)
        · rw [if_pos he] at hout
          cases hl : loadJsonFile fs (manifestPath root ref) with
          | error e =>
              simp only [loadPackageIntoCache, hl] at hout
              subst hout
              simp [Except.map] at hres
          | ok d =>
              by_cases hv : d.schemaValid
              · simp only [loadPackageIntoCache, hl, if_pos hv] at hout
                subst hout
                obtain rfl : d.package = pkg := by
                  simpa [Except.map] using hres
                exact ⟨rfl, Or.inr rfl⟩
              · simp only [loadPackageIntoCache, hl, if_neg hv] at hout
                subst hout
                simp [Except.map] at hres
        · rw [if_neg he] at hout
          subst hout
          simp at hres


/-! ## Claim theorems -/

/-- C9: when `getItem` is called with an absent reference, it invokes the
error callback with exactly the message
`Expected reference within \x7b@inheritdoc\x7d tag`, returns `undefined`,
raises no exception, and touches neither the cache nor the filesystem. -/
theorem getItem_missing_reference (fs : FS) (cache : Cache) (root : String) :
    getItem fs cache root none =
      ⟨.ok none, cache, ["Expected reference within \x7b@inheritdoc\x7d tag"], []⟩ := rfl

/-- C3: for every uncached reference with a non-empty `packageName`, the
first filesystem path `getPackage` touches (the manifest path it checks
for existence and then loads) is the join of the project root, the fixed
segment `node_modules`, the scope name, the package name and
`dist/<packageName>.api.json` — also when `scopeName` is absent (empty),
in which case the join simply drops the empty segment. -/
theorem getPackage_manifest_path (fs : FS) (cache : Cache) (root : String)
    (ref : ApiDefinitionReference)
    (hc : lookupAssoc cache (cacheKey ref) = none)
    (hp : ref.packageName ≠ "") :
    (getPackage fs cache root ref).fsReads.head? =
      some (pathJoin [root, "node_modules", ref.scopeName, ref.packageName,
        "dist/" ++ ref.packageName ++ ".api.json"]) := by
  show (getPackage fs cache root ref).fsReads.head? = some (manifestPath root ref)
  by_cases he : existsSync fs (manifestPath root ref)
  · simp [getPackage, hc, hp, he]
  · simp [getPackage, hc, hp, he]

/-- C3 witness: a concrete uncached, scopeless reference; the computed
path contains no scope segment. -/
theorem getPackage_manifest_path_witness :
    (getPackage plainFS [] "root" fooRef).fsReads.head? =
      some (pathJoin ["root", "node_modules", "", "foo", "dist/foo.api.json"]) :=
  getPackage_manifest_path plainFS [] "root" fooRef rfl (by decide)

/-- C5: for every uncached reference with a non-empty `packageName` whose
computed manifest path does not exist on disk, `getPackage` reports
exactly one message — the not-found message naming the package — and
returns `undefined`, leaving the cache unchanged. -/
theorem getPackage_missing_manifest (fs : FS) (cache : Cache) (root : String)
    (ref : ApiDefinitionReference)
    (hc : lookupAssoc cache (cacheKey ref) = none)
    (hp : ref.packageName ≠ "")
    (he : existsSync fs (manifestPath root ref) = false) :
    getPackage fs cache root ref =
      ⟨.ok none, cache,
        ["@inheritdoc referenced package (\"" ++ ref.packageName
          ++ "\") not found in node modules."],
        [manifestPath root ref]⟩ := by
  simp [getPackage, hc, hp, he, notFoundMessage]

/-- C5 witness: an empty filesystem, so the manifest for `bar` is absent. -/
theorem getPackage_missing_manifest_witness :
    getPackage [] [] "root" ⟨"", "bar", "X", ""⟩ =
      ⟨.ok none, [],
        ["@inheritdoc referenced package (\"" ++ "bar" ++ "\") not found in node modules."],
        [manifestPath "root" ⟨"", "bar", "X", ""⟩]⟩ :=
  getPackage_missing_manifest [] [] "root" ⟨"", "bar", "X", ""⟩ rfl (by decide) rfl

/-- C7 (amended): for every reference whose `packageName` is empty,
provided the cache holds no entry under that reference's cache key (as in
every state reached through package names whose manifest basename does
not begin with a dot), `getPackage` returns `undefined`, never invokes
the error callback, and performs no filesystem access. -/
theorem getPackage_empty_packageName (fs : FS) (cache : Cache) (root : String)
    (ref : ApiDefinitionReference)
    (hp : ref.packageName = "")
    (hc : lookupAssoc cache (cacheKey ref) = none) :
    getPackage fs cache root ref = ⟨.ok none, cache, [], []⟩ := by
  simp [getPackage, hc, hp]

/-- C7 witness: the empty-package reference against an empty cache. -/
theorem getPackage_empty_packageName_witness :
    getPackage [] [] "root" emptyNameRef = ⟨.ok none, [], [], []⟩ :=
  getPackage_empty_packageName [] [] "root" emptyNameRef rfl rfl

/-- C7 counterexample: the cache is consulted before the empty
`packageName` guard, and loading the dot-named package `.evil` stores it
under the store key `""` (the basename `.evil.api.json` up to the first
dot).  A subsequent `getPackage` call whose reference has an empty
`packageName` therefore hits that cache entry and returns the package
instead of `undefined`, refuting the claim as stated. -/
theorem getPackage_empty_packageName_counterexample :
    (getPackage evilFS (getPackage evilFS [] "root" evilRef).cache "root" emptyNameRef).result
        = .ok (some fooPackage) ∧
      (Except.ok (some fooPackage) : Except String (Option DocPackage)) ≠ .ok none :=
  ⟨rfl, by simp⟩

/-- C10: whenever `loadPackageIntoCache` raises an error — a JSON parse
failure or a schema-validation failure — the cache is left exactly as it
was: the store into the cache happens only after validation succeeds. -/
theorem loadPackageIntoCache_error_keeps_cache (fs : FS) (cache : Cache) (p e : String)
    (h : (loadPackageIntoCache fs cache p).result = .error e) :
    (loadPackageIntoCache fs cache p).cache = cache := by
  cases hl : loadJsonFile fs p with
  | error e2 => simp [loadPackageIntoCache, hl]
  | ok d =>
      by_cases hv : d.schemaValid
      · simp [loadPackageIntoCache, hl, hv] at h
      · simp [loadPackageIntoCache, hl, hv]

/-- C10 witness: a file whose contents fail to parse as JSON. -/
theorem loadPackageIntoCache_error_keeps_cache_witness :
    (loadPackageIntoCache [("badfile", FileContent.invalidJson)] [] "badfile").cache = [] :=
  loadPackageIntoCache_error_keeps_cache [("badfile", FileContent.invalidJson)] [] "badfile"
    ("Unexpected token in JSON: " ++ "badfile") rfl

/-- C1 (amended): when the store key derived from the manifest path's
basename coincides with the reference's cache lookup key — which holds
exactly for the references the two key derivations agree on, e.g. an
absent `scopeName` and a dot-free, slash-free `packageName` — a
`getPackage` call that produced a package is followed, on an identical
reference, by a pure cache hit: the same package value is returned, the
cache is unchanged, nothing is reported, and no filesystem access occurs,
so no second `DocPackage` is constructed for that identity. -/
theorem getPackage_second_call_cached (fs : FS) (cache : Cache) (root : String)
    (ref : ApiDefinitionReference) (out : Outcome (Option DocPackage)) (pkg : DocPackage)
    (hkey : storeKey (manifestPath root ref) = cacheKey ref)
    (hout : getPackage fs cache root ref = out)
    (hres : out.result = .ok (some pkg)) :
    getPackage fs out.cache root ref = ⟨.ok (some pkg), out.cache, [], []⟩ := by
  obtain ⟨-, hcase⟩ := getPackage_ok_some_cases fs cache root ref out pkg hout hres
  have hhit : lookupAssoc out.cache (cacheKey ref) = some pkg := by
    rcases hcase with ⟨hc1, hc2⟩ | hc1
    · rw [hc1]; exact hc2
    · rw [hc1, ← hkey]; exact lookupAssoc_mapSet_self _ _ _
  simp [getPackage, hhit]

/-- C1 witness: the unscoped package `foo`, first loaded from disk, then
served from the cache with no filesystem access. -/
theorem getPackage_second_call_cached_witness :
    getPackage plainFS fooOut.cache "root" fooRef =
      ⟨.ok (some fooPackage), fooOut.cache, [], []⟩ :=
  getPackage_second_call_cached plainFS [] "root" fooRef fooOut fooPackage rfl rfl rfl

/-- C1 counterexample: for the scoped reference `s`/`p` the lookup key is
`s/p` but the load stores under the basename-derived key `p`, so a second
`getPackage` call with the identical reference misses the cache and
accesses the filesystem again (reading the manifest twice and the schema
once), refuting the claim that the second call performs no filesystem
access and constructs no second instance. -/
theorem getPackage_scoped_reload_counterexample :
    (getPackage scopedFS (getPackage scopedFS [] "root" scopedRef).cache "root"
        scopedRef).fsReads ≠ [] := by
  have h : (getPackage scopedFS (getPackage scopedFS [] "root" scopedRef).cache "root"
      scopedRef).fsReads =
      ["root/node_modules/s/p/dist/p.api.json", "root/node_modules/s/p/dist/p.api.json",
        "__dirname/schemas/api-json-schema.json"] := rfl
  rw [h]
  simp

/-- C2 (the code evaluated at the failing input): a reference carrying a
`memberName` whose `exportName` resolves to a non-Class-like export makes
`getItem` throw the TypeError of the JavaScript `in` operator applied to
the `undefined` `members` property, instead of returning `undefined`
without error. -/
theorem getItem_memberName_non_class_throws :
    getItem plainFS [("foo", fooPackage)] "root" (some ⟨"", "foo", "funcItem", "m"⟩) =
      ⟨.error (inOperatorTypeError "m"), [("foo", fooPackage)], [], []⟩ := rfl

/-- C4: against a loaded package whose `exports.Widget.members.render`
exists, the reference `(packageName foo, exportName Widget, memberName
render)` resolves to the member item — which differs from the export
item — and against a package where `members.render` is absent it
resolves to `undefined`. -/
theorem getItem_member_resolution :
    (getItem plainFS [("foo", fooPackage)] "root"
        (some ⟨"", "foo", "Widget", "render"⟩)).result = .ok (some renderItem) ∧
      renderItem ≠ widgetItem ∧
      (getItem plainFS [("foo", fooPackageNoRender)] "root"
        (some ⟨"", "foo", "Widget", "render"⟩)).result = .ok none :=
  ⟨rfl, fun h => by simp [renderItem, widgetItem] at h, rfl⟩

/-- C6: for every manifest document that violates the schema,
`loadPackageIntoCache` raises an error whose message contains the literal
phrase `does not conform to api-json-schema.json`; it neither reports
through the callback nor returns `undefined`, and the cache is left
unchanged. -/
theorem loadPackageIntoCache_schema_violation (fs : FS) (cache : Cache) (p : String)
    (d : ManifestDoc)
    (hfile : lookupAssoc fs p = some (.doc d))
    (hinvalid : d.schemaValid = false) :
    loadPackageIntoCache fs cache p =
        ⟨.error (validationErrorMessage d.errorDetail), cache, [], [p, apiJsonSchemaPath]⟩ ∧
      ∃ a b, validationErrorMessage d.errorDetail =
        a ++ ("does not conform to api-json-schema.json" ++ b) := by
  constructor
  · simp [loadPackageIntoCache, loadJsonFile, hfile, hinvalid]
  · exact ⟨"ApiJsonGenerator validation error - output ",
      ":" ++ osEOL ++ d.errorDetail, rfl⟩

/-- C6 witness: a concrete manifest failing validation (missing
`exports`). -/
theorem loadPackageIntoCache_schema_violation_witness :
    loadPackageIntoCache invalidFS [] "root/node_modules/bad/dist/bad.api.json" =
        ⟨.error (validationErrorMessage "Missing required property: exports"), [], [],
          ["root/node_modules/bad/dist/bad.api.json", apiJsonSchemaPath]⟩ ∧
      ∃ a b, validationErrorMessage "Missing required property: exports" =
        a ++ ("does not conform to api-json-schema.json" ++ b) :=
  loadPackageIntoCache_schema_violation invalidFS [] "root/node_modules/bad/dist/bad.api.json"
    invalidDoc rfl rfl

/-- C8: whenever `getPackage` successfully yields a package and the
reference's `exportName` is absent from that package's exports, `getItem`
returns `undefined` and invokes the error callback not at all. -/
theorem getItem_absent_export_silent (fs : FS) (cache : Cache) (root : String)
    (ref : ApiDefinitionReference) (out : Outcome (Option DocPackage)) (pkg : DocPackage)
    (hout : getPackage fs cache root ref = out)
    (hres : out.result = .ok (some pkg))
    (habs : lookupAssoc pkg.exports ref.exportName = none) :
    getItem fs cache root (some ref) = ⟨.ok none, out.cache, [], out.fsReads⟩ := by
  have hrep := (getPackage_ok_some_cases fs cache root ref out pkg hout hres).1
  simp [getItem, hout, hres, habs, hrep]

/-- C8 witness: export `Missing` absent from the cached package `foo`. -/
theorem getItem_absent_export_silent_witness :
    getItem plainFS [("foo", fooPackage)] "root" (some ⟨"", "foo", "Missing", ""⟩) =
      ⟨.ok none, [("foo", fooPackage)], [], []⟩ :=
  getItem_absent_export_silent plainFS [("foo", fooPackage)] "root" ⟨"", "foo", "Missing", ""⟩
    ⟨.ok (some fooPackage), [("foo", fooPackage)], [], []⟩ fooPackage rfl rfl rfl

end DocItemLoaderModel
